import Mathlib

/-!
Verification of the RAG-model repository's conversational frontend
(`rag-frontend/src/App.js`) and of the spec-modelled backend core
components (conversation memory, chunker) against the specification.

The React component state and its event handlers are embedded as pure
Lean functions: each handler takes the component state together with the
outcome of its (at most one) `fetch` call, and returns the new state
paired with the list of network requests it issued.
-/

/-- A recorded conversation turn, as built in `askQuestion`
(`App.js` lines 128-136): question text, answer text, source list,
timestamp string. -/
structure ConversationTurn where
  question : String
  answer : String
  sources : List String
  timestamp : String
deriving DecidableEq

/-- A network request issued by a handler via `fetch`. -/
inductive Request where
  | index : List String → Request
  | ask : String → Request
  | clearMemory : Request
deriving DecidableEq

/-- Parsed JSON body of a successful `POST /ask` response:
`data.answer` and the possibly absent `data.sources`. -/
structure AskData where
  answer : String
  sources : Option (List String)
deriving DecidableEq

/-- Parsed JSON body of a successful `POST /index` response. -/
structure IndexData where
  chunksIndexed : Nat
deriving DecidableEq

/-- Outcome of a `fetch` call as observed by the handler:
`ok` (response.ok with parsed data), `notOk` (non-OK response with an
optional `detail` field), or `thrown` (network error caught with a
message). -/
inductive FetchResult (α : Type) where
  | ok : α → FetchResult α
  | notOk : Option String → FetchResult α
  | thrown : String → FetchResult α
deriving DecidableEq

/-- The React component state of `App` (`App.js` lines 5-11).
Selected files are represented by their names, which is all the
handlers observe of them. -/
structure AppState where
  files : List String
  question : String
  conversation : List ConversationTurn
  loading : Bool
  status : String
  backendStatus : String
  currentDocuments : List String
deriving DecidableEq

/-- `uploadFiles` (`App.js` lines 42-86): guard on empty selection, guard
on backend health, then `POST /index`; on OK replace the document list
with the uploaded file names, clear the conversation and the selection. -/
def uploadFiles (s : AppState) (resp : FetchResult IndexData) :
    AppState × List Request :=
  if s.files.length = 0 then
    ({ s with status := "Please select files first" }, [])
  else if s.backendStatus ≠ "healthy" then
    ({ s with status := "Backend is not healthy. Please check the backend first." }, [])
  else
    match resp with
    | .ok d =>
        ({ s with currentDocuments := s.files,
                  status := toString s.files.length ++
                    " document(s) indexed successfully! " ++
                    toString d.chunksIndexed ++ " chunks created.",
                  conversation := [],
                  files := [],
                  loading := false }, [Request.index s.files])
    | .notOk detail =>
        ({ s with status := "Error: " ++ detail.getD "Failed to index documents",
                  loading := false }, [Request.index s.files])
    | .thrown msg =>
        ({ s with status := "Error: " ++ msg,
                  loading := false }, [Request.index s.files])

/-- `removeDocument` (`App.js` lines 88-94): filter the name out of the
local document list, clear the conversation when the (pre-update) list
had exactly one entry, set the status text. No `fetch` is issued. -/
def removeDocument (s : AppState) (documentName : String) :
    AppState × List Request :=
  ({ s with
      currentDocuments := s.currentDocuments.filter (fun d => d ≠ documentName),
      conversation := if s.currentDocuments.length = 1 then [] else s.conversation,
      status := "Document \"" ++ documentName ++ "\" removed." }, [])

/-- The JS guard `!question.trim()`: the trimmed question is empty
exactly when the question has no non-whitespace character. -/
def isBlank (q : String) : Bool :=
  q.toList.all (fun c => c.isWhitespace)

/-- `askQuestion` (`App.js` lines 96-148): guard on blank question,
backend health and empty document list, then `POST /ask`; on OK append
one turn built from the question, the answer, `data.sources || []` and
the current time, and clear the question input. -/
def askQuestion (s : AppState) (now : String) (resp : FetchResult AskData) :
    AppState × List Request :=
  if isBlank s.question then
    ({ s with status := "Please enter a question" }, [])
  else if s.backendStatus ≠ "healthy" then
    ({ s with status := "Backend is not healthy. Please check the backend first." }, [])
  else if s.currentDocuments.length = 0 then
    ({ s with status := "Please upload documents first before asking questions." }, [])
  else
    match resp with
    | .ok d =>
        ({ s with conversation := s.conversation ++
            [{ question := s.question, answer := d.answer,
               sources := d.sources.getD [], timestamp := now }],
                  question := "",
                  status := "Question answered successfully!",
                  loading := false }, [Request.ask s.question])
    | .notOk detail =>
        ({ s with status := "Error: " ++ detail.getD "Failed to process question",
                  loading := false }, [Request.ask s.question])
    | .thrown msg =>
        ({ s with status := "Error: " ++ msg,
                  loading := false }, [Request.ask s.question])

/-- `resetChat` (`App.js` lines 150-171): guard on backend health, then
`POST /clear-memory`; on OK empty the conversation. -/
def resetChat (s : AppState) (resp : FetchResult Unit) :
    AppState × List Request :=
  if s.backendStatus ≠ "healthy" then
    ({ s with status := "Backend is not healthy. Please check the backend first." }, [])
  else
    match resp with
    | .ok _ =>
        ({ s with conversation := [],
                  status := "Chat reset successfully! AI has forgotten the previous conversation." },
         [Request.clearMemory])
    | .notOk detail =>
        ({ s with status := "Error: " ++ detail.getD "Failed to reset chat" },
         [Request.clearMemory])
    | .thrown msg =>
        ({ s with status := "Error: " ++ msg }, [Request.clearMemory])

/-- Modelled from the spec: the backend ConversationMemory component
(§4.5) lives in `rag.py`, which is not under src; a bounded ordered log
of the most recent turns with a fixed window size. -/
structure ConversationMemory where
  window : Nat
  turns : List ConversationTurn
deriving DecidableEq

/-- The suffix of `l` of length `min n l.length` (its last `n` elements). -/
def takeLast (n : Nat) (l : List α) : List α :=
  l.drop (l.length - n)

/-- Modelled from the spec: `append(turn)` with sliding-window FIFO
eviction — when appending would exceed the window size, the oldest turn
is dropped first (§4.5). -/
def ConversationMemory.append (m : ConversationMemory) (t : ConversationTurn) :
    ConversationMemory :=
  { m with turns := takeLast m.window (m.turns ++ [t]) }

/-- Modelled from the spec: `clear()` empties the sequence (§4.5). -/
def ConversationMemory.clear (m : ConversationMemory) : ConversationMemory :=
  { m with turns := [] }

/-- An operation on the conversation memory. -/
inductive MemOp where
  | append : ConversationTurn → MemOp
  | clear : MemOp
deriving DecidableEq

/-- Apply one memory operation. -/
def ConversationMemory.applyOp (m : ConversationMemory) : MemOp → ConversationMemory
  | .append t => m.append t
  | .clear => m.clear

/-- Run a sequence of memory operations from a starting memory. -/
def ConversationMemory.run (m : ConversationMemory) (ops : List MemOp) :
    ConversationMemory :=
  ops.foldl ConversationMemory.applyOp m

/-- Append a whole list of turns in order. -/
def ConversationMemory.appendAll (m : ConversationMemory) (L : List ConversationTurn) :
    ConversationMemory :=
  L.foldl ConversationMemory.append m

/-- A fresh memory with window size `n` and no turns. -/
def ConversationMemory.empty (n : Nat) : ConversationMemory :=
  { window := n, turns := [] }

theorem takeLast_length (n : Nat) (l : List α) :
    (takeLast n l).length = l.length - (l.length - n) := by
  simp [takeLast]

theorem takeLast_length_le (n : Nat) (l : List α) :
    (takeLast n l).length ≤ n := by
  simp only [takeLast, List.length_drop]
  omega

theorem takeLast_append (n : Nat) (a L : List α) :
    takeLast n (a ++ L) = takeLast (n - L.length) a ++ takeLast n L := by
  simp only [takeLast, List.length_append, List.drop_append_eq_append_drop]
  rcases Nat.le_total L.length n with h | h
  · congr 1
    · congr 1
      omega
    · congr 1
      omega
  · rw [List.drop_eq_nil_of_le (show a.length ≤ a.length + L.length - n by omega),
      List.drop_eq_nil_of_le (show a.length ≤ a.length - (n - L.length) by omega)]
    simp only [List.nil_append]
    congr 1
    omega

theorem takeLast_takeLast {n m : Nat} (h : n ≤ m) (l : List α) :
    takeLast n (takeLast m l) = takeLast n l := by
  simp only [takeLast, List.drop_drop, List.length_drop]
  congr 1
  omega

theorem takeLast_glue (n : Nat) (l L : List α) :
    takeLast n (takeLast n l ++ L) = takeLast n (l ++ L) := by
  rw [takeLast_append, takeLast_append, takeLast_takeLast (Nat.sub_le n L.length)]

theorem takeLast_of_length_le {n : Nat} {l : List α} (h : l.length ≤ n) :
    takeLast n l = l := by
  simp only [takeLast]
  rw [Nat.sub_eq_zero_of_le h, List.drop_zero]

theorem appendAll_turns_general :
    ∀ (L : List ConversationTurn) (m : ConversationMemory),
      m.turns.length ≤ m.window →
      (m.appendAll L).turns = takeLast m.window (m.turns ++ L) ∧
        (m.appendAll L).window = m.window := by
  intro L
  induction L with
  | nil =>
      intro m h
      refine ⟨?_, rfl⟩
      simp only [ConversationMemory.appendAll, List.foldl_nil, List.append_nil]
      exact (takeLast_of_length_le h).symm
  | cons t L ih =>
      intro m h
      have step : m.appendAll (t :: L) = (m.append t).appendAll L := rfl
      have hlen : (m.append t).turns.length ≤ (m.append t).window :=
        takeLast_length_le _ _
      obtain ⟨h1, h2⟩ := ih (m.append t) hlen
      refine ⟨?_, by rw [step, h2]; rfl⟩
      rw [step, h1]
      show takeLast m.window (takeLast m.window (m.turns ++ [t]) ++ L) = _
      rw [takeLast_glue]
      simp

theorem appendAll_turns (n : Nat) (L : List ConversationTurn) :
    ((ConversationMemory.empty n).appendAll L).turns = takeLast n L := by
  have := (appendAll_turns_general L (ConversationMemory.empty n) (by simp [ConversationMemory.empty])).1
  simpa [ConversationMemory.empty] using this

theorem applyOp_length_le (m : ConversationMemory) (op : MemOp) :
    (m.applyOp op).turns.length ≤ (m.applyOp op).window := by
  cases op with
  | append t =>
      simp only [ConversationMemory.applyOp, ConversationMemory.append]
      exact takeLast_length_le _ _
  | clear =>
      simp [ConversationMemory.applyOp, ConversationMemory.clear]

theorem run_length_le (ops : List MemOp) :
    ∀ (m : ConversationMemory), m.turns.length ≤ m.window →
      (m.run ops).turns.length ≤ (m.run ops).window := by
  induction ops with
  | nil => intro m h; exact h
  | cons op ops ih =>
      intro m _h
      rw [ConversationMemory.run, List.foldl_cons]
      exact ih _ (applyOp_length_le m op)

theorem applyOp_window (m : ConversationMemory) (op : MemOp) :
    (m.applyOp op).window = m.window := by
  cases op <;> rfl

theorem run_window (ops : List MemOp) :
    ∀ (m : ConversationMemory), (m.run ops).window = m.window := by
  induction ops with
  | nil => intro m; rfl
  | cons op ops ih =>
      intro m
      rw [ConversationMemory.run, List.foldl_cons]
      rw [show (List.foldl ConversationMemory.applyOp (m.applyOp op) ops) =
        (m.applyOp op).run ops from rfl]
      rw [ih, applyOp_window]

/-- Error taxonomy of the spec (§7), restricted to the kinds the claims
mention. -/
inductive RagError where
  | invalidConfig
  | noDocumentsIndexed
  | documentNotFound
deriving DecidableEq

/-- Modelled from the spec: the Chunker's window sequence (§4.1) — the
chunking code lives in `rag.py`, which is not under src. Sequential
windows of `size` characters over the text, each window starting `step`
characters after the previous one; the last window may be shorter. -/
def chunksFrom (s : List Char) (size step : Nat) : List (List Char) :=
  if s = [] ∨ step = 0 then []
  else s.take size :: chunksFrom (s.drop step) size step
termination_by s.length
decreasing_by
  rename_i h
  push_neg at h
  obtain ⟨h1, h2⟩ := h
  have hp : 0 < s.length := List.length_pos.mpr h1
  simp only [List.length_drop]
  omega

/-- Modelled from the spec: `chunk(text, chunk_size, overlap)` (§4.1)
validates that chunk_size and overlap are positive with
overlap < chunk_size, failing with `InvalidConfig` otherwise, and
advances by (chunk_size − overlap) each step. -/
def chunk (text : List Char) (chunkSize overlap : Nat) :
    Except RagError (List (List Char)) :=
  if 0 < chunkSize ∧ 0 < overlap ∧ overlap < chunkSize then
    Except.ok (chunksFrom text chunkSize (chunkSize - overlap))
  else
    Except.error RagError.invalidConfig

/-- Concatenation of the chunk spans ignoring the overlap regions: the
first chunk whole, every later chunk with its first `overlap`
characters dropped. -/
def joinOverlap (overlap : Nat) : List (List Char) → List Char
  | [] => []
  | c :: rest => c ++ (rest.map (fun x => x.drop overlap)).flatten

theorem chunksFrom_length_le (size step : Nat) :
    ∀ (n : Nat) (s : List Char), s.length ≤ n →
      ∀ c ∈ chunksFrom s size step, c.length ≤ size := by
  intro n
  induction n with
  | zero =>
      intro s hs c hc
      have hnil : s = [] := List.eq_nil_of_length_eq_zero (Nat.le_zero.mp hs)
      rw [chunksFrom, if_pos (Or.inl hnil)] at hc
      simp at hc
  | succ n ih =>
      intro s hs c hc
      rw [chunksFrom] at hc
      by_cases h : s = [] ∨ step = 0
      · rw [if_pos h] at hc
        simp at hc
      · rw [if_neg h] at hc
        push_neg at h
        obtain ⟨h1, h2⟩ := h
        have hp : 0 < s.length := List.length_pos.mpr h1
        rcases List.mem_cons.mp hc with rfl | hc
        · simp only [List.length_take]
          exact Nat.min_le_left _ _
        · exact ih (s.drop step)
            (by simp only [List.length_drop]; omega) c hc

theorem chunksFrom_getq (size step : Nat) :
    ∀ (n : Nat) (s : List Char), s.length ≤ n →
      ∀ (i : Nat), i < (chunksFrom s size step).length →
        (chunksFrom s size step).get? i =
          some ((s.drop (i * step)).take size) := by
  intro n
  induction n with
  | zero =>
      intro s hs i hi
      have hnil : s = [] := List.eq_nil_of_length_eq_zero (Nat.le_zero.mp hs)
      rw [chunksFrom, if_pos (Or.inl hnil)] at hi
      simp at hi
  | succ n ih =>
      intro s hs i hi
      by_cases h : s = [] ∨ step = 0
      · rw [chunksFrom, if_pos h] at hi
        simp at hi
      · push_neg at h
        obtain ⟨h1, h2⟩ := h
        have hp : 0 < s.length := List.length_pos.mpr h1
        have hrec : chunksFrom s size step =
            s.take size :: chunksFrom (s.drop step) size step := by
          rw [chunksFrom, if_neg (by push_neg; exact ⟨h1, h2⟩)]
        rw [hrec]
        cases i with
        | zero => simp
        | succ i =>
            rw [List.get?_cons_succ]
            rw [hrec] at hi
            have hi2 : i < (chunksFrom (s.drop step) size step).length := by
              simpa using hi
            rw [ih (s.drop step) (by simp only [List.length_drop]; omega) i hi2]
            rw [List.drop_drop]
            congr 3
            ring

theorem chunksFrom_flatten_drop (size step overlap : Nat)
    (hstep : 0 < step) (hsum : overlap + step = size) :
    ∀ (n : Nat) (s : List Char), s.length ≤ n →
      ((chunksFrom s size step).map (fun x => x.drop overlap)).flatten =
        s.drop overlap := by
  intro n
  induction n with
  | zero =>
      intro s hs
      have hnil : s = [] := List.eq_nil_of_length_eq_zero (Nat.le_zero.mp hs)
      subst hnil
      rw [chunksFrom, if_pos (Or.inl rfl)]
      simp
  | succ n ih =>
      intro s hs
      by_cases h1 : s = []
      · subst h1
        rw [chunksFrom, if_pos (Or.inl rfl)]
        simp
      · have hp : 0 < s.length := List.length_pos.mpr h1
        rw [chunksFrom, if_neg (by push_neg; exact ⟨h1, by omega⟩)]
        simp only [List.map_cons, List.flatten_cons]
        rw [ih (s.drop step) (by simp only [List.length_drop]; omega)]
        rw [List.drop_take, List.drop_drop]
        rw [show size - overlap = step from by omega]
        exact List.drop_take_append_drop' s overlap step

theorem joinOverlap_chunksFrom (size step overlap : Nat)
    (hstep : 0 < step) (hsum : overlap + step = size)
    (s : List Char) :
    joinOverlap overlap (chunksFrom s size step) = s := by
  by_cases h1 : s = []
  · subst h1
    rw [chunksFrom, if_pos (Or.inl rfl)]
    rfl
  · rw [chunksFrom, if_neg (by push_neg; exact ⟨h1, by omega⟩)]
    rw [joinOverlap]
    rw [chunksFrom_flatten_drop size step overlap hstep hsum
      (s.drop step).length (s.drop step) (le_refl _)]
    rw [List.drop_drop]
    rw [show step + overlap = size from by omega]
    exact List.take_append_drop size s

/-- Modelled from the spec: the backend session state (§3) — one
VectorIndex (entries tagged with their parent document identifier) and
one ConversationMemory; the backend (`rag.py`, `fast_api.py`) is not
under src. -/
structure BackendSession where
  indexEntries : List (String × List Char)
  memory : ConversationMemory
deriving DecidableEq

/-- Modelled from the spec: ClearMemory (§6) empties the
ConversationMemory and has no other side effect. -/
def BackendSession.clearMemory (b : BackendSession) : BackendSession :=
  { b with memory := b.memory.clear }

/-- C1: with at least one document indexed, a healthy backend, a
non-blank question and a successful `/ask` call, `askQuestion` appends
exactly one new turn carrying the question text, the answer text, the
source list and the timestamp to the end of the conversation log — so
every previously recorded turn is unchanged and stays in order — reports
success in the status text, and issues exactly the ask request. -/
theorem ask_appends_one_turn (s : AppState) (now : String) (d : AskData)
    (hq : isBlank s.question ≠ true)
    (hb : s.backendStatus = "healthy")
    (hd : s.currentDocuments ≠ []) :
    (askQuestion s now (FetchResult.ok d)).1.conversation =
      s.conversation ++
        [{ question := s.question, answer := d.answer,
           sources := d.sources.getD [], timestamp := now }] ∧
    (askQuestion s now (FetchResult.ok d)).1.status =
      "Question answered successfully!" ∧
    (askQuestion s now (FetchResult.ok d)).2 = [Request.ask s.question] := by
  rw [askQuestion, if_neg hq, if_neg (not_not_intro hb),
    if_neg (fun h => hd (List.eq_nil_of_length_eq_zero h))]
  exact ⟨rfl, rfl, rfl⟩

/-- A concrete component state with one indexed document, a pending
question and one recorded turn. -/
def sAskOk : AppState :=
  { files := [], question := "What is RAG?",
    conversation := [{ question := "q0", answer := "a0",
                       sources := ["doc1.txt"], timestamp := "09:00" }],
    loading := false, status := "", backendStatus := "healthy",
    currentDocuments := ["doc1.txt"] }

theorem ask_appends_one_turn_witness :
    (askQuestion sAskOk "09:05"
      (FetchResult.ok { answer := "Retrieval-augmented generation.",
                        sources := some ["doc1.txt"] })).1.conversation =
      [{ question := "q0", answer := "a0",
         sources := ["doc1.txt"], timestamp := "09:00" },
       { question := "What is RAG?",
         answer := "Retrieval-augmented generation.",
         sources := ["doc1.txt"], timestamp := "09:05" }] ∧
    (askQuestion sAskOk "09:05"
      (FetchResult.ok { answer := "Retrieval-augmented generation.",
                        sources := some ["doc1.txt"] })).1.status =
      "Question answered successfully!" ∧
    (askQuestion sAskOk "09:05"
      (FetchResult.ok { answer := "Retrieval-augmented generation.",
                        sources := some ["doc1.txt"] })).2 =
      [Request.ask "What is RAG?"] :=
  ask_appends_one_turn sAskOk "09:05"
    { answer := "Retrieval-augmented generation.", sources := some ["doc1.txt"] }
    (by decide) rfl (by decide)

/-- C2: asking with no documents indexed (with a non-blank question and a
healthy backend) fails with the no-documents status message and changes
nothing else: the resulting state differs from the old one only in the
status text, and no request is issued, so the conversation log, the
document list and the index are all unchanged. -/
theorem ask_empty_fails_no_side_effects (s : AppState) (now : String)
    (resp : FetchResult AskData)
    (hq : isBlank s.question ≠ true)
    (hb : s.backendStatus = "healthy")
    (hd : s.currentDocuments = []) :
    (askQuestion s now resp).1 =
      { s with status := "Please upload documents first before asking questions." } ∧
    (askQuestion s now resp).2 = [] := by
  rw [askQuestion.eq_def, if_neg hq, if_neg (not_not_intro hb),
    if_pos (by rw [hd]; rfl)]
  exact ⟨rfl, rfl⟩

/-- A concrete component state with no documents indexed. -/
def sAskEmpty : AppState :=
  { files := [], question := "What is RAG?",
    conversation := [], loading := false, status := "",
    backendStatus := "healthy", currentDocuments := [] }

theorem ask_empty_fails_no_side_effects_witness :
    (askQuestion sAskEmpty "09:05"
      (FetchResult.ok { answer := "a", sources := none })).1 =
      { sAskEmpty with
          status := "Please upload documents first before asking questions." } ∧
    (askQuestion sAskEmpty "09:05"
      (FetchResult.ok { answer := "a", sources := none })).2 = [] :=
  ask_empty_fails_no_side_effects sAskEmpty "09:05"
    (FetchResult.ok { answer := "a", sources := none })
    (by decide) rfl rfl

/-- C3: when the `/ask` call fails — non-OK response or thrown network
error — the conversation log is exactly as it was before the operation:
no partial turn is recorded. -/
theorem ask_failure_conversation_unchanged (s : AppState) (now : String)
    (detail : Option String) (msg : String) :
    (askQuestion s now (FetchResult.notOk detail)).1.conversation =
      s.conversation ∧
    (askQuestion s now (FetchResult.thrown msg)).1.conversation =
      s.conversation := by
  refine ⟨?_, ?_⟩ <;>
  · rw [askQuestion.eq_def]
    split_ifs <;> rfl

/-- C4: on the spec-modelled backend ConversationMemory with window size
N, no sequence of append/clear operations run from an empty memory ever
leaves more than N turns; and after appending N+1 distinct turns to an
empty memory the oldest turn is absent while the newest N remain in
oldest-to-newest order. -/
theorem memory_window_fifo (N : Nat) (ops : List MemOp)
    (L : List ConversationTurn) (t0 : ConversationTurn)
    (hlen : L.length = N + 1) (hnd : L.Nodup) (hhead : L.head? = some t0) :
    ((ConversationMemory.empty N).run ops).turns.length ≤ N ∧
    ((ConversationMemory.empty N).appendAll L).turns = L.drop 1 ∧
    t0 ∉ ((ConversationMemory.empty N).appendAll L).turns := by
  have hwin : ((ConversationMemory.empty N).run ops).window = N :=
    run_window ops (ConversationMemory.empty N)
  have hrun := run_length_le ops (ConversationMemory.empty N)
    (by simp [ConversationMemory.empty])
  rw [hwin] at hrun
  have hturns : ((ConversationMemory.empty N).appendAll L).turns = L.drop 1 := by
    rw [appendAll_turns, takeLast, hlen]
    congr 1
    omega
  refine ⟨hrun, hturns, ?_⟩
  rw [hturns]
  cases L with
  | nil => simp at hhead
  | cons a rest =>
      have ha : a = t0 := by simpa using hhead
      subst ha
      simp only [List.drop_one, List.tail_cons]
      exact (List.nodup_cons.mp hnd).1

/-- A sample conversation turn. -/
def wTurn1 : ConversationTurn :=
  { question := "q1", answer := "a1", sources := ["d1"], timestamp := "10:01" }

/-- A second, distinct sample conversation turn. -/
def wTurn2 : ConversationTurn :=
  { question := "q2", answer := "a2", sources := ["d1"], timestamp := "10:02" }

theorem memory_window_fifo_witness :
    ((ConversationMemory.empty 1).run
      [MemOp.append wTurn1, MemOp.append wTurn2]).turns.length ≤ 1 ∧
    ((ConversationMemory.empty 1).appendAll [wTurn1, wTurn2]).turns =
      [wTurn1, wTurn2].drop 1 ∧
    wTurn1 ∉ ((ConversationMemory.empty 1).appendAll [wTurn1, wTurn2]).turns :=
  memory_window_fifo 1 [MemOp.append wTurn1, MemOp.append wTurn2]
    [wTurn1, wTurn2] wTurn1 rfl (by decide) rfl

/-- A concrete component state with one indexed document and a recorded
turn, used to exercise `removeDocument`. -/
def sRemove : AppState :=
  { files := [], question := "",
    conversation := [{ question := "q0", answer := "a0",
                       sources := ["a.txt"], timestamp := "09:00" }],
    loading := false, status := "", backendStatus := "healthy",
    currentDocuments := ["a.txt"] }

/-- C5 counterexample: `removeDocument` never produces a DocumentNotFound
failure and never touches the VectorIndex. At the concrete state with
`a.txt` indexed: removing the unknown identifier `b.txt` reports success
in the status text (no failure) while the document list is unchanged; and
even removing the known identifier `a.txt` issues no request at all, so
no VectorIndex entry is removed. -/
theorem removeDocument_no_failure_no_index_effect :
    (removeDocument sRemove "b.txt").1.status = "Document \"b.txt\" removed." ∧
    (removeDocument sRemove "b.txt").1.currentDocuments = ["a.txt"] ∧
    (removeDocument sRemove "b.txt").2 = [] ∧
    (removeDocument sRemove "a.txt").2 = [] := by
  refine ⟨rfl, by decide, rfl, rfl⟩

/-- C5 amended: for every state and every identifier, `removeDocument`
succeeds unconditionally: it filters the identifier out of the local
document list, reports removal in the status text, and issues no
request, so VectorIndex entries are never removed. -/
theorem removeDocument_local_filter_only (s : AppState) (documentName : String) :
    (removeDocument s documentName).1.currentDocuments =
      s.currentDocuments.filter (fun d => d ≠ documentName) ∧
    (removeDocument s documentName).1.status =
      "Document \"" ++ documentName ++ "\" removed." ∧
    (removeDocument s documentName).2 = [] :=
  ⟨rfl, rfl, rfl⟩

/-- C6: for a document list without duplicate names containing the given
name, removing the only document empties the document list (state Empty)
and clears the conversation; removing one of two or more documents
leaves the list non-empty (state Indexed) and the conversation
untouched. -/
theorem removeDocument_state_transition (s : AppState) (name : String)
    (hnd : s.currentDocuments.Nodup) (_hmem : name ∈ s.currentDocuments) :
    (s.currentDocuments = [name] →
      (removeDocument s name).1.currentDocuments = [] ∧
      (removeDocument s name).1.conversation = []) ∧
    (2 ≤ s.currentDocuments.length →
      (removeDocument s name).1.currentDocuments ≠ [] ∧
      (removeDocument s name).1.conversation = s.conversation) := by
  constructor
  · intro hlast
    constructor
    · simp [removeDocument, hlast]
    · simp [removeDocument, hlast]
  · intro h2
    constructor
    · have hex : ∃ b ∈ s.currentDocuments, b ≠ name := by
        rcases hdocs : s.currentDocuments with _ | ⟨a, rest⟩
        · rw [hdocs] at h2; simp at h2
        · rcases rest with _ | ⟨b, rest2⟩
          · rw [hdocs] at h2; simp at h2
          · rw [hdocs] at hnd
            have hab : a ≠ b := by
              have := (List.nodup_cons.mp hnd).1
              simp only [List.mem_cons] at this
              push_neg at this
              exact this.1
            by_cases ha : a = name
            · exact ⟨b, by simp, by rw [← ha]; exact fun hbn => hab hbn.symm⟩
            · exact ⟨a, by simp, ha⟩
      obtain ⟨b, hbmem, hbne⟩ := hex
      have : b ∈ (removeDocument s name).1.currentDocuments := by
        simp only [removeDocument]
        exact List.mem_filter.mpr ⟨hbmem, by simp [hbne]⟩
      exact List.ne_nil_of_mem this
    · simp only [removeDocument]
      rw [if_neg (by omega)]

/-- A concrete component state with two indexed documents. -/
def sRemoveTwo : AppState :=
  { files := [], question := "",
    conversation := [{ question := "q0", answer := "a0",
                       sources := ["a.txt"], timestamp := "09:00" }],
    loading := false, status := "", backendStatus := "healthy",
    currentDocuments := ["a.txt", "b.txt"] }

theorem removeDocument_state_transition_witness :
    ((removeDocument sRemove "a.txt").1.currentDocuments = [] ∧
      (removeDocument sRemove "a.txt").1.conversation = []) ∧
    ((removeDocument sRemoveTwo "a.txt").1.currentDocuments ≠ [] ∧
      (removeDocument sRemoveTwo "a.txt").1.conversation =
        sRemoveTwo.conversation) :=
  ⟨(removeDocument_state_transition sRemove "a.txt" (by decide) (by decide)).1
      rfl,
   (removeDocument_state_transition sRemoveTwo "a.txt" (by decide) (by decide)).2
      (by decide)⟩

/-- C7: a successful reset-chat empties the conversation log and changes
nothing else in the component state except the status text — in
particular the document list is unchanged — and the only request issued
is clear-memory, which on the spec-modelled backend session empties the
conversation memory and leaves the vector index entries untouched. -/
theorem resetChat_clears_only_memory (s : AppState) (b : BackendSession)
    (hb : s.backendStatus = "healthy") :
    (resetChat s (FetchResult.ok ())).1 =
      { s with conversation := [],
               status := "Chat reset successfully! AI has forgotten the previous conversation." } ∧
    (resetChat s (FetchResult.ok ())).2 = [Request.clearMemory] ∧
    b.clearMemory.memory.turns = [] ∧
    b.clearMemory.indexEntries = b.indexEntries := by
  rw [resetChat, if_neg (not_not_intro hb)]
  exact ⟨rfl, rfl, rfl, rfl⟩

/-- A concrete backend session with one index entry and one stored turn. -/
def bSession : BackendSession :=
  { indexEntries := [("a.txt", "Paris is the capital of France.".toList)],
    memory := { window := 5, turns := [wTurn1] } }

theorem resetChat_clears_only_memory_witness :
    (resetChat sRemove (FetchResult.ok ())).1 =
      { sRemove with conversation := [],
                     status := "Chat reset successfully! AI has forgotten the previous conversation." } ∧
    (resetChat sRemove (FetchResult.ok ())).2 = [Request.clearMemory] ∧
    bSession.clearMemory.memory.turns = [] ∧
    bSession.clearMemory.indexEntries = bSession.indexEntries :=
  resetChat_clears_only_memory sRemove bSession rfl

/-- C8: for the spec-modelled Chunker with positive chunk_size and
overlap and overlap < chunk_size, `chunk` succeeds with the window
sequence whose i-th window starts at offset i·(chunk_size − overlap) in
the text (windows advance by chunk_size − overlap each step), the
concatenation of the windows with every later window's first `overlap`
characters dropped reconstructs the original text, and no window exceeds
chunk_size characters. -/
theorem chunk_windows_cover (text : List Char) (chunkSize overlap : Nat)
    (h1 : 0 < chunkSize) (h2 : 0 < overlap) (h3 : overlap < chunkSize) :
    chunk text chunkSize overlap =
      Except.ok (chunksFrom text chunkSize (chunkSize - overlap)) ∧
    (∀ (i : Nat) (hi : i < (chunksFrom text chunkSize (chunkSize - overlap)).length),
      (chunksFrom text chunkSize (chunkSize - overlap)).get ⟨i, hi⟩ =
        (text.drop (i * (chunkSize - overlap))).take chunkSize) ∧
    joinOverlap overlap (chunksFrom text chunkSize (chunkSize - overlap)) = text ∧
    (∀ c ∈ chunksFrom text chunkSize (chunkSize - overlap), c.length ≤ chunkSize) := by
  refine ⟨?_, ?_, ?_, ?_⟩
  · rw [chunk, if_pos ⟨h1, h2, h3⟩]
  · intro i hi
    have hq := chunksFrom_getq chunkSize (chunkSize - overlap)
      text.length text (le_refl _) i hi
    rw [List.get?_eq_get hi] at hq
    exact Option.some.inj hq
  · exact joinOverlap_chunksFrom chunkSize (chunkSize - overlap) overlap
      (by omega) (by omega) text
  · exact chunksFrom_length_le chunkSize (chunkSize - overlap)
      text.length text (le_refl _)

theorem chunk_windows_cover_witness :
    chunk "abcdef".toList 3 1 =
      Except.ok (chunksFrom "abcdef".toList 3 (3 - 1)) ∧
    (∀ (i : Nat) (hi : i < (chunksFrom "abcdef".toList 3 (3 - 1)).length),
      (chunksFrom "abcdef".toList 3 (3 - 1)).get ⟨i, hi⟩ =
        ("abcdef".toList.drop (i * (3 - 1))).take 3) ∧
    joinOverlap 1 (chunksFrom "abcdef".toList 3 (3 - 1)) = "abcdef".toList ∧
    (∀ c ∈ chunksFrom "abcdef".toList 3 (3 - 1), c.length ≤ 3) :=
  chunk_windows_cover "abcdef".toList 3 1 (by decide) (by decide) (by decide)

/-- C9: a successful upload/index (non-empty selection, healthy backend,
OK response) replaces the document list with exactly the names of the
uploaded files, empties the conversation log even though no clear-memory
was requested, and clears the file selection. -/
theorem upload_success_replaces_docs_clears_chat (s : AppState) (d : IndexData)
    (hf : s.files ≠ [])
    (hb : s.backendStatus = "healthy") :
    (uploadFiles s (FetchResult.ok d)).1.currentDocuments = s.files ∧
    (uploadFiles s (FetchResult.ok d)).1.conversation = [] ∧
    (uploadFiles s (FetchResult.ok d)).1.files = [] ∧
    (uploadFiles s (FetchResult.ok d)).2 = [Request.index s.files] := by
  rw [uploadFiles, if_neg (fun h => hf (List.eq_nil_of_length_eq_zero h)),
    if_neg (not_not_intro hb)]
  exact ⟨rfl, rfl, rfl, rfl⟩

/-- A concrete component state with two files selected, a recorded turn
and a previous document list. -/
def sUpload : AppState :=
  { files := ["new1.txt", "new2.md"], question := "",
    conversation := [{ question := "q0", answer := "a0",
                       sources := ["old.txt"], timestamp := "09:00" }],
    loading := false, status := "", backendStatus := "healthy",
    currentDocuments := ["old.txt"] }

theorem upload_success_replaces_docs_clears_chat_witness :
    (uploadFiles sUpload (FetchResult.ok { chunksIndexed := 7 })).1.currentDocuments =
      ["new1.txt", "new2.md"] ∧
    (uploadFiles sUpload (FetchResult.ok { chunksIndexed := 7 })).1.conversation = [] ∧
    (uploadFiles sUpload (FetchResult.ok { chunksIndexed := 7 })).1.files = [] ∧
    (uploadFiles sUpload (FetchResult.ok { chunksIndexed := 7 })).2 =
      [Request.index ["new1.txt", "new2.md"]] :=
  upload_success_replaces_docs_clears_chat sUpload { chunksIndexed := 7 }
    (by decide) rfl

/-- C10: whenever the backend status is not healthy, each of the three
mutating handlers — upload/index, ask, reset-chat — issues no network
request and returns a state identical to the old one except for the
status text: the conversation log and the document list are unchanged. -/
theorem unhealthy_backend_no_request (s : AppState) (now : String)
    (ri : FetchResult IndexData) (ra : FetchResult AskData)
    (rc : FetchResult Unit)
    (hb : s.backendStatus ≠ "healthy") :
    (uploadFiles s ri).1 = { s with status := (uploadFiles s ri).1.status } ∧
    (uploadFiles s ri).2 = [] ∧
    (askQuestion s now ra).1 = { s with status := (askQuestion s now ra).1.status } ∧
    (askQuestion s now ra).2 = [] ∧
    (resetChat s rc).1 = { s with status := (resetChat s rc).1.status } ∧
    (resetChat s rc).2 = [] := by
  refine ⟨?_, ?_, ?_, ?_, ?_, ?_⟩
  · rw [uploadFiles.eq_def]
    split_ifs with h1 <;> rfl
  · rw [uploadFiles.eq_def]
    split_ifs with h1 <;> rfl
  · rw [askQuestion.eq_def]
    split_ifs with h1 <;> rfl
  · rw [askQuestion.eq_def]
    split_ifs with h1 <;> rfl
  · rw [resetChat.eq_def]
    split_ifs
    rfl
  · rw [resetChat.eq_def]
    split_ifs
    rfl

/-- A concrete component state whose backend is in the error state. -/
def sUnhealthy : AppState :=
  { files := ["new1.txt"], question := "What is RAG?",
    conversation := [{ question := "q0", answer := "a0",
                       sources := ["old.txt"], timestamp := "09:00" }],
    loading := false, status := "", backendStatus := "error",
    currentDocuments := ["old.txt"] }

theorem unhealthy_backend_no_request_witness :
    (uploadFiles sUnhealthy (FetchResult.ok { chunksIndexed := 7 })).1 =
      { sUnhealthy with
          status := (uploadFiles sUnhealthy (FetchResult.ok { chunksIndexed := 7 })).1.status } ∧
    (uploadFiles sUnhealthy (FetchResult.ok { chunksIndexed := 7 })).2 = [] ∧
    (askQuestion sUnhealthy "09:05" (FetchResult.ok { answer := "a", sources := none })).1 =
      { sUnhealthy with
          status := (askQuestion sUnhealthy "09:05" (FetchResult.ok { answer := "a", sources := none })).1.status } ∧
    (askQuestion sUnhealthy "09:05" (FetchResult.ok { answer := "a", sources := none })).2 = [] ∧
    (resetChat sUnhealthy (FetchResult.ok ())).1 =
      { sUnhealthy with
          status := (resetChat sUnhealthy (FetchResult.ok ())).1.status } ∧
    (resetChat sUnhealthy (FetchResult.ok ())).2 = [] :=
  unhealthy_backend_no_request sUnhealthy "09:05"
    (FetchResult.ok { chunksIndexed := 7 })
    (FetchResult.ok { answer := "a", sources := none })
    (FetchResult.ok ()) (by decide)
